import Mathlib

/-!
Shallow embedding of the countdown-timer engine in `src/App.tsx` of
chengju279/sequential-timer.

The React component keeps its engine state in a collection of `useState`
variables.  We gather those variables into one record `AppState` and translate
each handler (`handleTimeChange`, `startMainTimer`, `pauseMainTimer`,
`resumeMainTimer`, `resetMainTimer`, `addStep`, `deleteStep`, `clearAllSteps`,
`savePreset`) and the interval callback (`tick`) into a pure state
transformer.  `playAlarm`'s engine-visible effect is `isAlarmPlaying := true`;
we additionally count its invocations in `alarmTriggerCount` so that
"triggers the alarm k times" is expressible.  Functional `setX(prev => ...)`
updaters read `prev`; plain reads of state variables inside a handler see the
render-time (pre-update) values, which the translation mirrors by reading the
original state `s` rather than the newer one.
-/

namespace SeqTimer

/-- The `TimerStep` record from App.tsx (id, name, duration in seconds). -/
structure TimerStep where
  id : Nat
  name : String
  duration : Nat
deriving DecidableEq, Repr

/-- The `Preset` record from App.tsx (id, name, saved steps). -/
structure Preset where
  id : Nat
  name : String
  steps : List TimerStep
deriving DecidableEq, Repr

/-- The field selector of `handleTimeChange` ('hours' | 'minutes' | 'seconds'). -/
inductive TimeField where
  | hours
  | minutes
  | seconds
deriving DecidableEq, Repr

/-- The `useState` variables of the `App` component, as one record.
`alarmTriggerCount` instruments the number of `playAlarm` invocations
(alarm-trigger events); it is not a source variable. -/
structure AppState where
  timerName : String
  inputHours : Nat
  inputMinutes : Nat
  inputSeconds : Nat
  displayHours : Nat
  displayMinutes : Nat
  displaySeconds : Nat
  steps : List TimerStep
  isRunning : Bool
  currentStepIndex : Nat
  remainingTime : Nat
  isMainTimerRunning : Bool
  mainTimerRemainingTime : Nat
  isPaused : Bool
  presets : List Preset
  isAlarmPlaying : Bool
  isUsingSteps : Bool
  alarmTriggerCount : Nat
deriving DecidableEq, Repr

/-- Translation of `steps.reduce((total, step) => total + step.duration, 0)`. -/
def stepsTotal (l : List TimerStep) : Nat :=
  (l.map fun st => st.duration).sum

/-- Translation of `steps[i].duration` (0 when out of range; all uses are under the source's
range guards). -/
def stepDurAt (l : List TimerStep) (i : Nat) : Nat :=
  (l[i]?.map fun st => st.duration).getD 0

/-- Translation of `inputHours * 3600 + inputMinutes * 60 + inputSeconds`. -/
def totalInput (s : AppState) : Nat :=
  s.inputHours * 3600 + s.inputMinutes * 60 + s.inputSeconds

/-- Translation of `playAlarm`: starts (or restarts) looping playback; engine-visible effect is
`setIsAlarmPlaying(true)`.  We also count the trigger event. -/
def playAlarm (s : AppState) : AppState :=
  { s with isAlarmPlaying := true, alarmTriggerCount := s.alarmTriggerCount + 1 }

/-- Translation of `stopAlarm`: pauses playback and `setIsAlarmPlaying(false)`. -/
def stopAlarm (s : AppState) : AppState :=
  { s with isAlarmPlaying := false }

/-- Translation of `resetSteps` (App.tsx lines 233-243): index back to 0 and, when steps exist,
re-seed the per-step and overall counters and the display from the sequence. -/
def resetSteps (s : AppState) : AppState :=
  let s0 := { s with currentStepIndex := 0 }
  if 0 < s0.steps.length then
    let totalSeconds := stepsTotal s0.steps
    { s0 with
      remainingTime := stepDurAt s0.steps 0
      mainTimerRemainingTime := totalSeconds
      displayHours := totalSeconds / 3600
      displayMinutes := totalSeconds % 3600 / 60
      displaySeconds := totalSeconds % 60 }
  else s0

/-- The wrap-around update inside `handleTimeChange`:
`newValue = prev + delta; if (newValue >= limit) return 0;
if (newValue < 0) return maxVal; return newValue`. -/
def wrapAdjust (limit maxVal : Nat) (prev : Nat) (delta : Int) : Nat :=
  let newValue : Int := (prev : Int) + delta
  if (limit : Int) ≤ newValue then 0
  else if newValue < 0 then maxVal
  else newValue.toNat

/-- Translation of `handleTimeChange` (App.tsx lines 278-315).  Guarded only by
`isMainTimerRunning`.  The trailing `!isUsingSteps` block reads the input
fields from the closure, i.e. the values before this adjustment. -/
def handleTimeChange (s : AppState) (ty : TimeField) (delta : Int) : AppState :=
  if s.isMainTimerRunning then s
  else
    let s1 :=
      match ty with
      | TimeField.hours => { s with inputHours := wrapAdjust 24 23 s.inputHours delta }
      | TimeField.minutes => { s with inputMinutes := wrapAdjust 60 59 s.inputMinutes delta }
      | TimeField.seconds => { s with inputSeconds := wrapAdjust 60 59 s.inputSeconds delta }
    if !s.isUsingSteps then
      let totalSeconds := s.inputHours * 3600 + s.inputMinutes * 60 + s.inputSeconds
      { s1 with
        mainTimerRemainingTime := totalSeconds
        displayHours := s.inputHours
        displayMinutes := s.inputMinutes
        displaySeconds := s.inputSeconds }
    else s1

/-- Translation of `startMainTimer` (App.tsx lines 324-352). -/
def startMainTimer (s : AppState) : AppState :=
  let totalInputSeconds := totalInput s
  let s1 :=
    if 0 < s.steps.length then
      let sA := { s with isUsingSteps := true }
      if sA.isPaused then
        { sA with isPaused := false, isMainTimerRunning := true, isRunning := true }
      else if !sA.isMainTimerRunning then
        { sA with
          isMainTimerRunning := true
          isRunning := true
          currentStepIndex := 0
          remainingTime := stepDurAt sA.steps 0
          isPaused := false }
      else sA
    else if 0 < totalInputSeconds then
      let sA := { s with isUsingSteps := false }
      if !sA.isMainTimerRunning then
        { sA with
          mainTimerRemainingTime := totalInputSeconds
          displayHours := s.inputHours
          displayMinutes := s.inputMinutes
          displaySeconds := s.inputSeconds
          isMainTimerRunning := true
          isPaused := false }
      else sA
    else s
  stopAlarm s1

/-- Translation of `pauseMainTimer` (App.tsx lines 354-358). -/
def pauseMainTimer (s : AppState) : AppState :=
  { s with isPaused := true, isMainTimerRunning := false, isRunning := false }

/-- Translation of `resumeMainTimer` (App.tsx lines 360-364). -/
def resumeMainTimer (s : AppState) : AppState :=
  { s with isPaused := false, isMainTimerRunning := true, isRunning := true }

/-- Translation of `resetMainTimer` (App.tsx lines 366-383). -/
def resetMainTimer (s : AppState) : AppState :=
  let s1 := { s with isMainTimerRunning := false, isRunning := false, currentStepIndex := 0 }
  let s2 :=
    if s1.isUsingSteps && decide (0 < s1.steps.length) then
      { s1 with
        remainingTime := stepDurAt s1.steps 0
        mainTimerRemainingTime := stepsTotal s1.steps }
    else
      { s1 with
        mainTimerRemainingTime := totalInput s1
        displayHours := s1.inputHours
        displayMinutes := s1.inputMinutes
        displaySeconds := s1.inputSeconds }
  stopAlarm { s2 with isPaused := false }

/-- The interval callback (App.tsx lines 460-506), fired once per second only
while `isMainTimerRunning && !isPaused` (the interval exists only then).  The
two functional updaters each receive the pre-tick value of their own state
variable (`prev`), and read `currentStepIndex`/`steps` from the closure, i.e.
also pre-tick values; both run in the same batch. -/
def tick (s : AppState) : AppState :=
  if s.isMainTimerRunning && !s.isPaused then
    if s.isUsingSteps then
      let s1 :=
        if s.mainTimerRemainingTime ≤ 1 then
          let sA := { s with isMainTimerRunning := false, isRunning := false }
          let sB := resetSteps (playAlarm sA)
          { sB with mainTimerRemainingTime := stepsTotal s.steps }
        else
          { s with mainTimerRemainingTime := s.mainTimerRemainingTime - 1 }
      if s.remainingTime ≤ 1 then
        let s2 := playAlarm s1
        if s.currentStepIndex < s.steps.length - 1 then
          { s2 with
            currentStepIndex := s.currentStepIndex + 1
            remainingTime := stepDurAt s.steps (s.currentStepIndex + 1) }
        else
          let s3 := resetSteps { s2 with isRunning := false, currentStepIndex := 0 }
          { s3 with remainingTime := stepDurAt s.steps 0 }
      else
        { s1 with remainingTime := s.remainingTime - 1 }
    else
      if s.mainTimerRemainingTime ≤ 1 then
        { playAlarm { s with isMainTimerRunning := false } with mainTimerRemainingTime := 0 }
      else
        { s with mainTimerRemainingTime := s.mainTimerRemainingTime - 1 }
  else s

/-- Translation of `addStep` (App.tsx lines 411-423).  `now` stands for `Date.now()`; the
default name uses JS `timerName || ...` (empty string is falsy). -/
def addStep (now : Nat) (s : AppState) : AppState :=
  let totalSeconds := totalInput s
  if 0 < totalSeconds then
    let newStep : TimerStep :=
      { id := now
        name := if s.timerName = "" then "Step " ++ toString (s.steps.length + 1) else s.timerName
        duration := totalSeconds }
    { s with steps := s.steps ++ [newStep], timerName := "", isUsingSteps := true }
  else s

/-- Translation of `deleteStep` (App.tsx lines 425-432). -/
def deleteStep (stepId : Nat) (s : AppState) : AppState :=
  if s.isRunning then s
  else
    let newSteps := s.steps.filter fun st => st.id != stepId
    let s1 := { s with steps := newSteps }
    if s1.steps.length = 0 then { s1 with isUsingSteps := false } else s1

/-- Translation of `clearAllSteps` (App.tsx lines 397-409). -/
def clearAllSteps (s : AppState) : AppState :=
  if !s.isRunning then
    { s with
      steps := []
      isUsingSteps := false
      currentStepIndex := 0
      remainingTime := 0
      mainTimerRemainingTime := totalInput s
      displayHours := s.inputHours
      displayMinutes := s.inputMinutes
      displaySeconds := s.inputSeconds }
  else s

/-- Translation of `savePreset` (App.tsx lines 434-446).  `now` stands for `Date.now()`;
`[...steps]` copies the array, so the preset holds the save-time list. -/
def savePreset (now : Nat) (name : String) (s : AppState) : AppState :=
  if 0 < s.steps.length then
    let newPreset : Preset := { id := now, name := name, steps := s.steps }
    { s with presets := s.presets ++ [newPreset] }
  else s

/-- Iterated ticks: `tickN k s` is the state after `k` one-second ticks. -/
def tickN : Nat → AppState → AppState
  | 0, s => s
  | k + 1, s => tick (tickN k s)

/-- The idle state with counters seeded from a step sequence, as produced by
`resetSteps`/`resetMainTimer` and the `[steps, isUsingSteps]` effect
(App.tsx lines 217-231) before a sequential run. -/
def seededIdle (l : List TimerStep) : AppState :=
  { timerName := ""
    inputHours := 0
    inputMinutes := 0
    inputSeconds := 0
    displayHours := stepsTotal l / 3600
    displayMinutes := stepsTotal l % 3600 / 60
    displaySeconds := stepsTotal l % 60
    steps := l
    isRunning := false
    currentStepIndex := 0
    remainingTime := stepDurAt l 0
    isMainTimerRunning := false
    mainTimerRemainingTime := stepsTotal l
    isPaused := false
    presets := []
    isAlarmPlaying := false
    isUsingSteps := !l.isEmpty
    alarmTriggerCount := 0 }

/-- A fresh idle state holding only a time entry (simple mode). -/
def entryIdle (h m sec : Nat) : AppState :=
  { timerName := ""
    inputHours := h
    inputMinutes := m
    inputSeconds := sec
    displayHours := 0
    displayMinutes := 0
    displaySeconds := 0
    steps := []
    isRunning := false
    currentStepIndex := 0
    remainingTime := 0
    isMainTimerRunning := false
    mainTimerRemainingTime := 0
    isPaused := false
    presets := []
    isAlarmPlaying := false
    isUsingSteps := false
    alarmTriggerCount := 0 }

/-- The engine commands of the sequential state machine. -/
inductive TimerOp where
  | startOp
  | tickOp
  | pauseOp
  | resumeOp
  | resetOp
deriving DecidableEq, Repr

/-- Interpretation of a command by the handlers above. -/
def applyOp : TimerOp → AppState → AppState
  | TimerOp.startOp, s => startMainTimer s
  | TimerOp.tickOp, s => tick s
  | TimerOp.pauseOp, s => pauseMainTimer s
  | TimerOp.resumeOp, s => resumeMainTimer s
  | TimerOp.resetOp, s => resetMainTimer s

/-- States reachable from the seeded idle state of a fixed step sequence by
start/tick/pause/resume/reset.  (None of these commands changes `steps` or
`isUsingSteps` on such states, so the `[steps, isUsingSteps]` effect never
re-fires along these runs.) -/
inductive Reachable (l : List TimerStep) : AppState → Prop where
  | seed : Reachable l (seededIdle l)
  | step (op : TimerOp) (s : AppState) : Reachable l s → Reachable l (applyOp op s)

/-- A paused simple-mode state with a pending 3-second countdown. -/
def pausedEntry : AppState :=
  { entryIdle 0 0 5 with isPaused := true, mainTimerRemainingTime := 3 }

/-- A running simple-mode state. -/
def runningSimple : AppState :=
  { entryIdle 0 0 5 with isMainTimerRunning := true, mainTimerRemainingTime := 5 }

/-- A running simple-mode state with the alarm sounding. -/
def runningAlarm : AppState :=
  { entryIdle 0 0 5 with
    isMainTimerRunning := true, mainTimerRemainingTime := 5, isAlarmPlaying := true }

/-- A running sequential-mode state whose single step has id 99, with a
non-zero time entry pending. -/
def runningSteps : AppState :=
  { seededIdle [{ id := 99, name := "A", duration := 2 }] with
    isMainTimerRunning := true, isRunning := true, inputSeconds := 5 }

lemma addStep_presets (now : Nat) (s : AppState) : (addStep now s).presets = s.presets := by
  simp only [addStep]
  split <;> rfl

lemma deleteStep_presets (stepId : Nat) (s : AppState) :
    (deleteStep stepId s).presets = s.presets := by
  simp only [deleteStep]
  split
  · rfl
  · split <;> rfl

lemma clearAllSteps_presets (s : AppState) : (clearAllSteps s).presets = s.presets := by
  simp only [clearAllSteps]
  split <;> rfl

lemma tick_simple_dec (s : AppState) (hrun : s.isMainTimerRunning = true)
    (hp : s.isPaused = false) (hus : s.isUsingSteps = false)
    (h1 : 1 < s.mainTimerRemainingTime) :
    tick s = { s with mainTimerRemainingTime := s.mainTimerRemainingTime - 1 } := by
  have hn : ¬ s.mainTimerRemainingTime ≤ 1 := by omega
  simp [tick, hrun, hp, hus, hn]

lemma tick_simple_fin (s : AppState) (hrun : s.isMainTimerRunning = true)
    (hp : s.isPaused = false) (hus : s.isUsingSteps = false)
    (h1 : s.mainTimerRemainingTime = 1) :
    tick s = { s with
      isMainTimerRunning := false
      isAlarmPlaying := true
      alarmTriggerCount := s.alarmTriggerCount + 1
      mainTimerRemainingTime := 0 } := by
  simp [tick, playAlarm, hrun, hp, hus, h1]

lemma tickN_simple (s : AppState) (hrun : s.isMainTimerRunning = true)
    (hp : s.isPaused = false) (hus : s.isUsingSteps = false) (k : Nat)
    (hk : k < s.mainTimerRemainingTime) :
    tickN k s = { s with mainTimerRemainingTime := s.mainTimerRemainingTime - k } := by
  induction k with
  | zero => simp [tickN]
  | succ k ih =>
    have hk' : k < s.mainTimerRemainingTime := Nat.lt_of_succ_lt hk
    rw [tickN, ih hk',
      tick_simple_dec { s with mainTimerRemainingTime := s.mainTimerRemainingTime - k }
        hrun hp hus (by show 1 < s.mainTimerRemainingTime - k; omega)]
    have hsub : s.mainTimerRemainingTime - k - 1 = s.mainTimerRemainingTime - (k + 1) := by
      omega
    show { s with mainTimerRemainingTime := s.mainTimerRemainingTime - k - 1 }
        = { s with mainTimerRemainingTime := s.mainTimerRemainingTime - (k + 1) }
    rw [hsub]

/-- C10: while idle in simple (non-steps) mode, `handleTimeChange` seeds the
remaining/display time from the entry fields as they were BEFORE the
adjustment (`hours*3600 + minutes*60 + seconds` over the pre-call values), one
adjustment behind the just-updated fields. -/
theorem C10_adjust_seeds_stale_total (s : AppState) (ty : TimeField) (delta : Int)
    (hrun : s.isMainTimerRunning = false) (hus : s.isUsingSteps = false) :
    (handleTimeChange s ty delta).mainTimerRemainingTime
        = s.inputHours * 3600 + s.inputMinutes * 60 + s.inputSeconds
      ∧ (handleTimeChange s ty delta).displayHours = s.inputHours
      ∧ (handleTimeChange s ty delta).displayMinutes = s.inputMinutes
      ∧ (handleTimeChange s ty delta).displaySeconds = s.inputSeconds := by
  cases ty <;> simp [handleTimeChange, hrun, hus]

/-- Witness for C10 at the all-zero entry: one +1 on seconds makes the entry
total 1 but seeds remaining time 0 (the pre-adjustment total). -/
theorem C10_adjust_seeds_stale_total_witness :
    (entryIdle 0 0 0).isMainTimerRunning = false
      ∧ (entryIdle 0 0 0).isUsingSteps = false
      ∧ (handleTimeChange (entryIdle 0 0 0) TimeField.seconds 1).inputSeconds = 1
      ∧ (handleTimeChange (entryIdle 0 0 0) TimeField.seconds 1).mainTimerRemainingTime = 0 := by
  refine ⟨rfl, rfl, by decide, ?_⟩
  exact (C10_adjust_seeds_stale_total (entryIdle 0 0 0) TimeField.seconds 1 rfl rfl).1

/-- C6 counterexample: in the paused state `pausedEntry` (status paused, not
running), adjusting seconds by +1 changes the entry field, refuting "no-op
whenever the engine's status is running or paused". -/
theorem C6_counterexample_paused_entry_mutable :
    pausedEntry.isPaused = true ∧ pausedEntry.isMainTimerRunning = false
      ∧ (handleTimeChange pausedEntry TimeField.seconds 1).inputSeconds
          ≠ pausedEntry.inputSeconds := by decide

/-- C6 amended: `adjust(field, delta)` is a no-op only while the engine is
running (`isMainTimerRunning`); while paused or idle the entry fields remain
mutable. -/
theorem C6_amended_noop_only_while_running (s : AppState) (ty : TimeField) (delta : Int)
    (hrun : s.isMainTimerRunning = true) :
    handleTimeChange s ty delta = s := by
  simp [handleTimeChange, hrun]

/-- Witness for the amended C6 at a concrete running state. -/
theorem C6_amended_noop_only_while_running_witness :
    runningSimple.isMainTimerRunning = true
      ∧ handleTimeChange runningSimple TimeField.hours 1 = runningSimple :=
  ⟨rfl, C6_amended_noop_only_while_running runningSimple TimeField.hours 1 rfl⟩

/-- C5 counterexample: `start()` while running is not a complete no-op — on
`runningAlarm` (running, alarm sounding) it mutates the state (it silences the
alarm). -/
theorem C5_counterexample_start_silences_alarm :
    runningAlarm.isMainTimerRunning = true ∧ runningAlarm.isPaused = false
      ∧ startMainTimer runningAlarm ≠ runningAlarm := by decide

/-- C5 amended: `start()` while running leaves status, counters, the active
step index, and the step list unchanged and raises no error, but it
unconditionally silences the alarm (so the alarm state can change). -/
theorem C5_amended_start_while_running (s : AppState)
    (hrun : s.isMainTimerRunning = true) (hp : s.isPaused = false) :
    (startMainTimer s).isMainTimerRunning = s.isMainTimerRunning
      ∧ (startMainTimer s).isPaused = s.isPaused
      ∧ (startMainTimer s).isRunning = s.isRunning
      ∧ (startMainTimer s).currentStepIndex = s.currentStepIndex
      ∧ (startMainTimer s).remainingTime = s.remainingTime
      ∧ (startMainTimer s).mainTimerRemainingTime = s.mainTimerRemainingTime
      ∧ (startMainTimer s).steps = s.steps
      ∧ (startMainTimer s).isAlarmPlaying = false := by
  unfold startMainTimer stopAlarm
  split_ifs <;> simp_all
  all_goals split_ifs <;> simp_all

/-- Witness for the amended C5 at `runningAlarm`. -/
theorem C5_amended_start_while_running_witness :
    runningAlarm.isMainTimerRunning = true
      ∧ (startMainTimer runningAlarm).mainTimerRemainingTime
          = runningAlarm.mainTimerRemainingTime
      ∧ (startMainTimer runningAlarm).isAlarmPlaying = false :=
  ⟨rfl,
    (C5_amended_start_while_running runningAlarm rfl rfl).2.2.2.2.2.1,
    (C5_amended_start_while_running runningAlarm rfl rfl).2.2.2.2.2.2.2⟩

/-- C8 counterexample: on `runningSteps` (engine running, existing step id 99),
`addStep` with clock value 99 still appends — the step list changes while
running — and the new step's id duplicates the existing one. -/
theorem C8_counterexample_append_while_running :
    runningSteps.isRunning = true ∧ runningSteps.isMainTimerRunning = true
      ∧ (addStep 99 runningSteps).steps ≠ runningSteps.steps
      ∧ ((addStep 99 runningSteps).steps.map fun st => st.id) = [99, 99] := by decide

/-- C8 amended: `append` with a zero entry total is a no-op; with a positive
total it always appends (regardless of the engine's running status) a step
whose id is the supplied clock value (not guaranteed distinct from existing
ids) and whose name defaults to "Step n" (n = new list length) when the
entered name is empty. -/
theorem C8_amended_append_behavior (s : AppState) (now : Nat) :
    (totalInput s = 0 → addStep now s = s)
      ∧ (0 < totalInput s →
          (addStep now s).steps = s.steps ++
            [{ id := now
               name := if s.timerName = ""
                 then "Step " ++ toString (s.steps.length + 1) else s.timerName
               duration := totalInput s }]) := by
  constructor
  · intro h
    simp [addStep, h]
  · intro h
    simp [addStep, h]

/-- Witness for the amended C8: appending to a fresh 5-second entry yields the
default-named step. -/
theorem C8_amended_append_behavior_witness :
    0 < totalInput (entryIdle 0 0 5)
      ∧ (addStep 7 (entryIdle 0 0 5)).steps
          = [{ id := 7, name := "Step 1", duration := 5 }] := by
  refine ⟨by decide, ?_⟩
  have h := (C8_amended_append_behavior (entryIdle 0 0 5) 7).2 (by decide)
  rw [h]
  rfl

/-- C9: saving a preset snapshots the live step list, and subsequent mutations
of the live StepSequence (append, remove, clear) leave the stored presets —
in particular the saved preset's steps, with their ids, names and durations —
unchanged. -/
theorem C9_preset_snapshot_independence (s : AppState) (now : Nat) (name : String)
    (hne : 0 < s.steps.length) (now2 stepId : Nat) :
    (savePreset now name s).presets
        = s.presets ++ [{ id := now, name := name, steps := s.steps }]
      ∧ (addStep now2 (savePreset now name s)).presets = (savePreset now name s).presets
      ∧ (deleteStep stepId (savePreset now name s)).presets = (savePreset now name s).presets
      ∧ (clearAllSteps (savePreset now name s)).presets = (savePreset now name s).presets := by
  refine ⟨by simp [savePreset, hne], ?_, ?_, ?_⟩
  · rw [addStep_presets]
  · rw [deleteStep_presets]
  · rw [clearAllSteps_presets]

/-- Witness for C9 at a one-step sequence. -/
theorem C9_preset_snapshot_independence_witness :
    0 < (seededIdle [{ id := 1, name := "A", duration := 2 }]).steps.length
      ∧ (savePreset 5 "p" (seededIdle [{ id := 1, name := "A", duration := 2 }])).presets
          = [{ id := 5, name := "p", steps := [{ id := 1, name := "A", duration := 2 }] }]
      ∧ (clearAllSteps (savePreset 5 "p" (seededIdle [{ id := 1, name := "A", duration := 2 }]))).presets
          = (savePreset 5 "p" (seededIdle [{ id := 1, name := "A", duration := 2 }])).presets := by
  have h := C9_preset_snapshot_independence
    (seededIdle [{ id := 1, name := "A", duration := 2 }]) 5 "p" (by decide) 9 3
  refine ⟨by decide, ?_, h.2.2.2⟩
  rw [h.1]
  rfl

/-- C1 (code-bug evidence): for the one-step sequence `[A: 1s]`, starting from
the seeded idle state and ticking once to completion fires `playAlarm` TWICE
on the single (final) boundary — once from the overall-timer updater and once
from the step-timer updater — although `len(steps) = 1`.  The rest of the
claim holds there: the engine ends idle with `activeStepIndex = 0` and both
counters re-seeded to the sequence's starting values. -/
theorem C1_double_alarm_on_final_boundary :
    ([{ id := 1, name := "A", duration := 1 }] : List TimerStep).length = 1
      ∧ (tick (startMainTimer (seededIdle [{ id := 1, name := "A", duration := 1 }]))).alarmTriggerCount = 2
      ∧ (tick (startMainTimer (seededIdle [{ id := 1, name := "A", duration := 1 }]))).isMainTimerRunning = false
      ∧ (tick (startMainTimer (seededIdle [{ id := 1, name := "A", duration := 1 }]))).isPaused = false
      ∧ (tick (startMainTimer (seededIdle [{ id := 1, name := "A", duration := 1 }]))).currentStepIndex = 0
      ∧ (tick (startMainTimer (seededIdle [{ id := 1, name := "A", duration := 1 }]))).remainingTime = 1
      ∧ (tick (startMainTimer (seededIdle [{ id := 1, name := "A", duration := 1 }]))).mainTimerRemainingTime = 1 := by
  decide

lemma startMainTimer_entryIdle (h m sec : Nat) (hT : 0 < h * 3600 + m * 60 + sec) :
    startMainTimer (entryIdle h m sec) = { entryIdle h m sec with
      mainTimerRemainingTime := h * 3600 + m * 60 + sec
      displayHours := h
      displayMinutes := m
      displaySeconds := sec
      isMainTimerRunning := true
      isPaused := false } := by
  simp only [startMainTimer, stopAlarm, totalInput, entryIdle, List.length_nil,
    lt_self_iff_false, if_false]
  split_ifs with hc
  · rfl
  · exact absurd rfl hc

/-- C2: in simple mode, for an entry `(h, m, s)` with total seconds `T > 0`,
`start()` followed by exactly `T` ticks keeps the engine running with no alarm
trigger and `remainingOverall = T - k` through every tick `k < T`, and the
`T`-th tick (the one on which `remainingOverall` crosses from 1 to 0) leaves
the engine idle with `remainingOverall = 0` and exactly one alarm trigger. -/
theorem C2_simple_run_one_alarm (h m sec : Nat) (hT : 0 < h * 3600 + m * 60 + sec) :
    (∀ k, k < h * 3600 + m * 60 + sec →
        (tickN k (startMainTimer (entryIdle h m sec))).isMainTimerRunning = true
          ∧ (tickN k (startMainTimer (entryIdle h m sec))).alarmTriggerCount = 0
          ∧ (tickN k (startMainTimer (entryIdle h m sec))).mainTimerRemainingTime
              = h * 3600 + m * 60 + sec - k)
      ∧ (tickN (h * 3600 + m * 60 + sec) (startMainTimer (entryIdle h m sec))).isMainTimerRunning = false
      ∧ (tickN (h * 3600 + m * 60 + sec) (startMainTimer (entryIdle h m sec))).isPaused = false
      ∧ (tickN (h * 3600 + m * 60 + sec) (startMainTimer (entryIdle h m sec))).mainTimerRemainingTime = 0
      ∧ (tickN (h * 3600 + m * 60 + sec) (startMainTimer (entryIdle h m sec))).alarmTriggerCount = 1 := by
  rw [startMainTimer_entryIdle h m sec hT]
  constructor
  · intro k hk
    rw [tickN_simple _ rfl rfl rfl k (by show k < h * 3600 + m * 60 + sec; exact hk)]
    exact ⟨rfl, rfl, rfl⟩
  · obtain ⟨k, hk⟩ : ∃ k, h * 3600 + m * 60 + sec = k + 1 :=
      ⟨h * 3600 + m * 60 + sec - 1, by omega⟩
    rw [hk, tickN,
      tickN_simple _ rfl rfl rfl k (by show k < k + 1; omega),
      tick_simple_fin _ rfl rfl rfl (by show k + 1 - k = 1; omega)]
    exact ⟨rfl, rfl, rfl, rfl⟩

/-- Witness for C2 with the spec's own example `00:00:05`: after the fifth
tick the engine is idle with `remainingOverall = 0` and one alarm trigger,
and after four ticks it is still running with none. -/
theorem C2_simple_run_one_alarm_witness :
    (0 : Nat) < 0 * 3600 + 0 * 60 + 5
      ∧ (tickN 4 (startMainTimer (entryIdle 0 0 5))).mainTimerRemainingTime = 1
      ∧ (tickN 4 (startMainTimer (entryIdle 0 0 5))).alarmTriggerCount = 0
      ∧ (tickN 5 (startMainTimer (entryIdle 0 0 5))).isMainTimerRunning = false
      ∧ (tickN 5 (startMainTimer (entryIdle 0 0 5))).mainTimerRemainingTime = 0
      ∧ (tickN 5 (startMainTimer (entryIdle 0 0 5))).alarmTriggerCount = 1 := by
  have h := C2_simple_run_one_alarm 0 0 5 (by decide)
  have h4 := h.1 4 (by decide)
  exact ⟨by decide, h4.2.2, h4.2.1, h.2.1, h.2.2.2.1, h.2.2.2.2⟩

/-- A mid-run paused sequential state with the alarm sounding, used to witness
C4. -/
def messyPaused : AppState :=
  { seededIdle [{ id := 1, name := "A", duration := 2 }, { id := 2, name := "B", duration := 3 }] with
    isPaused := true
    currentStepIndex := 1
    remainingTime := 1
    mainTimerRemainingTime := 1
    isAlarmPlaying := true
    alarmTriggerCount := 4 }

/-- C4: `reset()` from any state (idle, running or paused — and in either
mode, the mode flag agreeing with whether steps exist) returns to idle,
silences the alarm, and re-seeds `activeStepIndex = 0`,
`remainingStep = steps[0].duration` and `remainingOverall = totalDuration()`
(or `remainingOverall` = the entry total in simple mode) — exactly the values
a fresh `start()` would seed, so a `start()` right after the reset changes no
counter. -/
theorem C4_reset_reseeds_and_silences (s : AppState)
    (hmode : s.isUsingSteps = !s.steps.isEmpty) :
    (resetMainTimer s).isMainTimerRunning = false
      ∧ (resetMainTimer s).isPaused = false
      ∧ (resetMainTimer s).isRunning = false
      ∧ (resetMainTimer s).currentStepIndex = 0
      ∧ (resetMainTimer s).isAlarmPlaying = false
      ∧ (0 < s.steps.length →
          (resetMainTimer s).remainingTime = stepDurAt s.steps 0
            ∧ (resetMainTimer s).mainTimerRemainingTime = stepsTotal s.steps)
      ∧ (s.steps.length = 0 → (resetMainTimer s).mainTimerRemainingTime = totalInput s)
      ∧ (startMainTimer (resetMainTimer s)).currentStepIndex
          = (resetMainTimer s).currentStepIndex
      ∧ (startMainTimer (resetMainTimer s)).remainingTime
          = (resetMainTimer s).remainingTime
      ∧ (startMainTimer (resetMainTimer s)).mainTimerRemainingTime
          = (resetMainTimer s).mainTimerRemainingTime := by
  cases hst : s.steps with
  | nil =>
    rw [hst] at hmode
    simp only [List.isEmpty_nil, Bool.not_true] at hmode
    simp [resetMainTimer, startMainTimer, stopAlarm, totalInput, hst, hmode]
    split_ifs <;> simp_all
  | cons a l =>
    rw [hst] at hmode
    simp only [List.isEmpty_cons, Bool.not_false] at hmode
    simp [resetMainTimer, startMainTimer, stopAlarm, totalInput, hst, hmode]

/-- Witness for C4 at `messyPaused` (paused mid-run in step 1, alarm on). -/
theorem C4_reset_reseeds_and_silences_witness :
    messyPaused.isPaused = true ∧ messyPaused.isAlarmPlaying = true
      ∧ (resetMainTimer messyPaused).isPaused = false
      ∧ (resetMainTimer messyPaused).isAlarmPlaying = false
      ∧ (resetMainTimer messyPaused).currentStepIndex = 0
      ∧ (resetMainTimer messyPaused).remainingTime = stepDurAt messyPaused.steps 0
      ∧ (resetMainTimer messyPaused).mainTimerRemainingTime = stepsTotal messyPaused.steps := by
  have h := C4_reset_reseeds_and_silences messyPaused (by decide)
  have h6 := h.2.2.2.2.2.1 (by decide)
  exact ⟨rfl, rfl, h.2.1, h.2.2.2.2.1, h.2.2.2.1, h6.1, h6.2⟩

/-- Iterated clicks: `k` successive `adjust(field, +1)` calls. -/
def adjustN (ty : TimeField) : Nat → AppState → AppState
  | 0, s => s
  | k + 1, s => handleTimeChange (adjustN ty k s) ty 1

lemma handleTimeChange_isMainTimerRunning (s : AppState) (ty : TimeField) (delta : Int) :
    (handleTimeChange s ty delta).isMainTimerRunning = s.isMainTimerRunning := by
  unfold handleTimeChange
  cases ty <;> split_ifs <;> rfl

lemma handleTimeChange_inputHours (s : AppState) (delta : Int)
    (hrun : s.isMainTimerRunning = false) :
    (handleTimeChange s TimeField.hours delta).inputHours
      = wrapAdjust 24 23 s.inputHours delta := by
  unfold handleTimeChange
  rw [hrun]
  split_ifs <;> simp_all

lemma handleTimeChange_inputMinutes (s : AppState) (delta : Int)
    (hrun : s.isMainTimerRunning = false) :
    (handleTimeChange s TimeField.minutes delta).inputMinutes
      = wrapAdjust 60 59 s.inputMinutes delta := by
  unfold handleTimeChange
  rw [hrun]
  split_ifs <;> simp_all

lemma handleTimeChange_inputSeconds (s : AppState) (delta : Int)
    (hrun : s.isMainTimerRunning = false) :
    (handleTimeChange s TimeField.seconds delta).inputSeconds
      = wrapAdjust 60 59 s.inputSeconds delta := by
  unfold handleTimeChange
  rw [hrun]
  split_ifs <;> simp_all

lemma wrapAdjust_one_24 (v : Nat) (hv : v < 24) : wrapAdjust 24 23 v 1 = (v + 1) % 24 := by
  simp only [wrapAdjust]
  split_ifs <;> omega

lemma wrapAdjust_negone_24 (v : Nat) (hv : v < 24) :
    wrapAdjust 24 23 v (-1) = (v + 23) % 24 := by
  simp only [wrapAdjust]
  split_ifs <;> omega

lemma wrapAdjust_one_60 (v : Nat) (hv : v < 60) : wrapAdjust 60 59 v 1 = (v + 1) % 60 := by
  simp only [wrapAdjust]
  split_ifs <;> omega

lemma wrapAdjust_negone_60 (v : Nat) (hv : v < 60) :
    wrapAdjust 60 59 v (-1) = (v + 59) % 60 := by
  simp only [wrapAdjust]
  split_ifs <;> omega

lemma adjustN_hours (s : AppState) (hrun : s.isMainTimerRunning = false)
    (hb : s.inputHours < 24) (k : Nat) :
    (adjustN TimeField.hours k s).inputHours = (s.inputHours + k) % 24
      ∧ (adjustN TimeField.hours k s).isMainTimerRunning = false := by
  induction k with
  | zero => exact ⟨by simp [adjustN, Nat.mod_eq_of_lt hb], hrun⟩
  | succ k ih =>
    refine ⟨?_, by rw [adjustN, handleTimeChange_isMainTimerRunning]; exact ih.2⟩
    rw [adjustN, handleTimeChange_inputHours _ 1 ih.2,
      wrapAdjust_one_24 _ (by rw [ih.1]; exact Nat.mod_lt _ (by norm_num)), ih.1]
    omega

lemma adjustN_minutes (s : AppState) (hrun : s.isMainTimerRunning = false)
    (hb : s.inputMinutes < 60) (k : Nat) :
    (adjustN TimeField.minutes k s).inputMinutes = (s.inputMinutes + k) % 60
      ∧ (adjustN TimeField.minutes k s).isMainTimerRunning = false := by
  induction k with
  | zero => exact ⟨by simp [adjustN, Nat.mod_eq_of_lt hb], hrun⟩
  | succ k ih =>
    refine ⟨?_, by rw [adjustN, handleTimeChange_isMainTimerRunning]; exact ih.2⟩
    rw [adjustN, handleTimeChange_inputMinutes _ 1 ih.2,
      wrapAdjust_one_60 _ (by rw [ih.1]; exact Nat.mod_lt _ (by norm_num)), ih.1]
    omega

lemma adjustN_seconds (s : AppState) (hrun : s.isMainTimerRunning = false)
    (hb : s.inputSeconds < 60) (k : Nat) :
    (adjustN TimeField.seconds k s).inputSeconds = (s.inputSeconds + k) % 60
      ∧ (adjustN TimeField.seconds k s).isMainTimerRunning = false := by
  induction k with
  | zero => exact ⟨by simp [adjustN, Nat.mod_eq_of_lt hb], hrun⟩
  | succ k ih =>
    refine ⟨?_, by rw [adjustN, handleTimeChange_isMainTimerRunning]; exact ih.2⟩
    rw [adjustN, handleTimeChange_inputSeconds _ 1 ih.2,
      wrapAdjust_one_60 _ (by rw [ih.1]; exact Nat.mod_lt _ (by norm_num)), ih.1]
    omega

/-- C7: while idle with in-range fields, `adjust(field, ±1)` acts modulo the
field's range (hours mod 24, minutes and seconds mod 60): `+1` past the
maximum wraps to 0, `-1` below 0 wraps to the maximum, `+1` followed by `-1`
restores the field, and a full cycle of 24 (hours) or 60 (minutes/seconds)
`+1` clicks restores the field. -/
theorem C7_adjust_wraparound (s : AppState) (hrun : s.isMainTimerRunning = false)
    (_hp : s.isPaused = false)
    (hb : s.inputHours < 24 ∧ s.inputMinutes < 60 ∧ s.inputSeconds < 60) :
    (handleTimeChange s TimeField.hours 1).inputHours = (s.inputHours + 1) % 24
      ∧ (handleTimeChange s TimeField.hours (-1)).inputHours = (s.inputHours + 23) % 24
      ∧ (handleTimeChange s TimeField.minutes 1).inputMinutes = (s.inputMinutes + 1) % 60
      ∧ (handleTimeChange s TimeField.minutes (-1)).inputMinutes = (s.inputMinutes + 59) % 60
      ∧ (handleTimeChange s TimeField.seconds 1).inputSeconds = (s.inputSeconds + 1) % 60
      ∧ (handleTimeChange s TimeField.seconds (-1)).inputSeconds = (s.inputSeconds + 59) % 60
      ∧ (handleTimeChange (handleTimeChange s TimeField.hours 1) TimeField.hours (-1)).inputHours
          = s.inputHours
      ∧ (handleTimeChange (handleTimeChange s TimeField.minutes 1) TimeField.minutes (-1)).inputMinutes
          = s.inputMinutes
      ∧ (handleTimeChange (handleTimeChange s TimeField.seconds 1) TimeField.seconds (-1)).inputSeconds
          = s.inputSeconds
      ∧ (adjustN TimeField.hours 24 s).inputHours = s.inputHours
      ∧ (adjustN TimeField.minutes 60 s).inputMinutes = s.inputMinutes
      ∧ (adjustN TimeField.seconds 60 s).inputSeconds = s.inputSeconds := by
  obtain ⟨hbH, hbM, hbS⟩ := hb
  have hrun1 : ∀ ty delta, (handleTimeChange s ty delta).isMainTimerRunning = false := by
    intro ty delta
    rw [handleTimeChange_isMainTimerRunning]
    exact hrun
  refine ⟨?_, ?_, ?_, ?_, ?_, ?_, ?_, ?_, ?_, ?_, ?_, ?_⟩
  · rw [handleTimeChange_inputHours _ 1 hrun, wrapAdjust_one_24 _ hbH]
  · rw [handleTimeChange_inputHours _ (-1) hrun, wrapAdjust_negone_24 _ hbH]
  · rw [handleTimeChange_inputMinutes _ 1 hrun, wrapAdjust_one_60 _ hbM]
  · rw [handleTimeChange_inputMinutes _ (-1) hrun, wrapAdjust_negone_60 _ hbM]
  · rw [handleTimeChange_inputSeconds _ 1 hrun, wrapAdjust_one_60 _ hbS]
  · rw [handleTimeChange_inputSeconds _ (-1) hrun, wrapAdjust_negone_60 _ hbS]
  · rw [handleTimeChange_inputHours _ (-1) (hrun1 TimeField.hours 1),
      handleTimeChange_inputHours _ 1 hrun, wrapAdjust_one_24 _ hbH,
      wrapAdjust_negone_24 _ (Nat.mod_lt _ (by norm_num))]
    omega
  · rw [handleTimeChange_inputMinutes _ (-1) (hrun1 TimeField.minutes 1),
      handleTimeChange_inputMinutes _ 1 hrun, wrapAdjust_one_60 _ hbM,
      wrapAdjust_negone_60 _ (Nat.mod_lt _ (by norm_num))]
    omega
  · rw [handleTimeChange_inputSeconds _ (-1) (hrun1 TimeField.seconds 1),
      handleTimeChange_inputSeconds _ 1 hrun, wrapAdjust_one_60 _ hbS,
      wrapAdjust_negone_60 _ (Nat.mod_lt _ (by norm_num))]
    omega
  · rw [(adjustN_hours s hrun hbH 24).1]
    omega
  · rw [(adjustN_minutes s hrun hbM 60).1]
    omega
  · rw [(adjustN_seconds s hrun hbS 60).1]
    omega

/-- Witness for C7 at the idle all-zero entry. -/
theorem C7_adjust_wraparound_witness :
    (entryIdle 0 0 0).isMainTimerRunning = false
      ∧ (handleTimeChange (entryIdle 0 0 0) TimeField.hours (-1)).inputHours = 23
      ∧ (handleTimeChange (entryIdle 0 0 0) TimeField.seconds 1).inputSeconds = 1
      ∧ (adjustN TimeField.hours 24 (entryIdle 0 0 0)).inputHours = 0
      ∧ (adjustN TimeField.seconds 60 (entryIdle 0 0 0)).inputSeconds = 0 := by
  have h := C7_adjust_wraparound (entryIdle 0 0 0) rfl rfl (by decide)
  exact ⟨rfl, h.2.1, h.2.2.2.2.1, h.2.2.2.2.2.2.2.2.2.1, h.2.2.2.2.2.2.2.2.2.2.2⟩

/-- Total duration of the steps from index `i` on. -/
def sufDur (l : List TimerStep) (i : Nat) : Nat :=
  stepsTotal (l.drop i)

lemma sum_drop_succ (d : List Nat) (i : Nat) (h : i < d.length) :
    (d.drop i).sum = d[i] + (d.drop (i + 1)).sum := by
  rw [List.drop_eq_getElem_cons h, List.sum_cons]

lemma sufDur_succ (l : List TimerStep) (i : Nat) (h : i < l.length) :
    sufDur l i = stepDurAt l i + sufDur l (i + 1) := by
  have hm : i < ((l.map fun st => st.duration) : List Nat).length := by simpa using h
  unfold sufDur stepsTotal stepDurAt
  rw [List.getElem?_eq_getElem h, List.map_drop, List.map_drop, sum_drop_succ _ i hm]
  simp

lemma sufDur_length (l : List TimerStep) : sufDur l l.length = 0 := by
  simp [sufDur, stepsTotal]

lemma stepDurAt_pos (l : List TimerStep) (hd : ∀ st ∈ l, 1 ≤ st.duration)
    (i : Nat) (h : i < l.length) : 1 ≤ stepDurAt l i := by
  have hm := hd l[i] (List.getElem_mem h)
  simpa [stepDurAt, List.getElem?_eq_getElem h] using hm

lemma stepsTotal_eq_sufDur_zero (l : List TimerStep) : stepsTotal l = sufDur l 0 := rfl

/-- The inductive invariant of the sequential state machine over a fixed step
list `l`: the step list and mode flag are stable, the active index is in
range, the step counter is positive, `remainingOverall` equals the step
counter plus the durations of the steps not yet begun, and any idle state is
fully re-seeded. -/
def Inv (l : List TimerStep) (s : AppState) : Prop :=
  s.steps = l
    ∧ s.isUsingSteps = true
    ∧ s.currentStepIndex < l.length
    ∧ 1 ≤ s.remainingTime
    ∧ s.mainTimerRemainingTime = s.remainingTime + sufDur l (s.currentStepIndex + 1)
    ∧ (s.isMainTimerRunning = false → s.isPaused = false →
        s.currentStepIndex = 0 ∧ s.remainingTime = stepDurAt l 0
          ∧ s.mainTimerRemainingTime = stepsTotal l)

lemma tick_seq_interior (s : AppState) (hrun : s.isMainTimerRunning = true)
    (hp : s.isPaused = false) (hus : s.isUsingSteps = true)
    (h1 : 1 < s.remainingTime) (h2 : 1 < s.mainTimerRemainingTime) :
    tick s = { s with
      mainTimerRemainingTime := s.mainTimerRemainingTime - 1
      remainingTime := s.remainingTime - 1 } := by
  have h1' : ¬ s.remainingTime ≤ 1 := by omega
  have h2' : ¬ s.mainTimerRemainingTime ≤ 1 := by omega
  simp [tick, hrun, hp, hus, h1', h2']

lemma tick_seq_advance (s : AppState) (hrun : s.isMainTimerRunning = true)
    (hp : s.isPaused = false) (hus : s.isUsingSteps = true)
    (h1 : s.remainingTime ≤ 1) (h2 : 1 < s.mainTimerRemainingTime)
    (hlast : s.currentStepIndex < s.steps.length - 1) :
    tick s = { s with
      mainTimerRemainingTime := s.mainTimerRemainingTime - 1
      isAlarmPlaying := true
      alarmTriggerCount := s.alarmTriggerCount + 1
      currentStepIndex := s.currentStepIndex + 1
      remainingTime := stepDurAt s.steps (s.currentStepIndex + 1) } := by
  have h2' : ¬ s.mainTimerRemainingTime ≤ 1 := by omega
  simp [tick, playAlarm, hrun, hp, hus, h1, h2', hlast]

lemma tick_seq_complete (s : AppState) (hrun : s.isMainTimerRunning = true)
    (hp : s.isPaused = false) (hus : s.isUsingSteps = true)
    (h1 : s.remainingTime ≤ 1) (h2 : s.mainTimerRemainingTime ≤ 1)
    (hlast : ¬ s.currentStepIndex < s.steps.length - 1) (hlen : 0 < s.steps.length) :
    tick s = { s with
      isMainTimerRunning := false
      isRunning := false
      currentStepIndex := 0
      remainingTime := stepDurAt s.steps 0
      mainTimerRemainingTime := stepsTotal s.steps
      displayHours := stepsTotal s.steps / 3600
      displayMinutes := stepsTotal s.steps % 3600 / 60
      displaySeconds := stepsTotal s.steps % 60
      isAlarmPlaying := true
      alarmTriggerCount := s.alarmTriggerCount + 2 } := by
  simp [tick, playAlarm, resetSteps, hrun, hp, hus, h1, h2, hlast, hlen]

lemma Inv_seed (l : List TimerStep) (hne : l ≠ [])
    (hd : ∀ st ∈ l, 1 ≤ st.duration) : Inv l (seededIdle l) := by
  have hlen : 0 < l.length := List.length_pos.mpr hne
  refine ⟨rfl, ?_, hlen, stepDurAt_pos l hd 0 hlen, ?_, fun _ _ => ⟨rfl, rfl, rfl⟩⟩
  · show (!l.isEmpty) = true
    simp [List.isEmpty_iff, hne]
  · show stepsTotal l = stepDurAt l 0 + sufDur l (0 + 1)
    rw [stepsTotal_eq_sufDur_zero, sufDur_succ l 0 hlen]

lemma Inv_pause (l : List TimerStep) (s : AppState) (h : Inv l s) :
    Inv l (pauseMainTimer s) := by
  obtain ⟨hsteps, hus, hidx, hrem, hmain, _⟩ := h
  exact ⟨hsteps, hus, hidx, hrem, hmain, fun _ hpf => by simp [pauseMainTimer] at hpf⟩

lemma Inv_resume (l : List TimerStep) (s : AppState) (h : Inv l s) :
    Inv l (resumeMainTimer s) := by
  obtain ⟨hsteps, hus, hidx, hrem, hmain, _⟩ := h
  exact ⟨hsteps, hus, hidx, hrem, hmain, fun hrf _ => by simp [resumeMainTimer] at hrf⟩

lemma Inv_reset (l : List TimerStep) (hne : l ≠ [])
    (hd : ∀ st ∈ l, 1 ≤ st.duration) (s : AppState) (h : Inv l s) :
    Inv l (resetMainTimer s) := by
  obtain ⟨hsteps, hus, hidx, hrem, hmain, _⟩ := h
  have hlen : 0 < l.length := List.length_pos.mpr hne
  have hlen' : 0 < s.steps.length := by rw [hsteps]; exact hlen
  have hres : resetMainTimer s = { s with
      isMainTimerRunning := false
      isRunning := false
      currentStepIndex := 0
      remainingTime := stepDurAt s.steps 0
      mainTimerRemainingTime := stepsTotal s.steps
      isPaused := false
      isAlarmPlaying := false } := by
    simp [resetMainTimer, stopAlarm, hus, hlen']
  rw [hres, hsteps]
  exact ⟨rfl, hus, hlen, stepDurAt_pos l hd 0 hlen,
    by show stepsTotal l = stepDurAt l 0 + sufDur l (0 + 1);
       rw [stepsTotal_eq_sufDur_zero, sufDur_succ l 0 hlen],
    fun _ _ => ⟨rfl, rfl, rfl⟩⟩

lemma Inv_start (l : List TimerStep) (hne : l ≠ [])
    (hd : ∀ st ∈ l, 1 ≤ st.duration) (s : AppState) (h : Inv l s) :
    Inv l (startMainTimer s) := by
  obtain ⟨hsteps, hus, hidx, hrem, hmain, hidle⟩ := h
  have hlen : 0 < l.length := List.length_pos.mpr hne
  have hlen' : 0 < s.steps.length := by rw [hsteps]; exact hlen
  by_cases hpa : s.isPaused = true
  · have hst : startMainTimer s = { s with
        isUsingSteps := true
        isPaused := false
        isMainTimerRunning := true
        isRunning := true
        isAlarmPlaying := false } := by
      simp [startMainTimer, stopAlarm, hlen', hpa]
    rw [hst]
    exact ⟨hsteps, rfl, hidx, hrem, hmain, fun hrf _ => by simp at hrf⟩
  · have hpf : s.isPaused = false := by
      cases hq : s.isPaused
      · rfl
      · exact absurd hq hpa
    by_cases hrn : s.isMainTimerRunning = true
    · have hst : startMainTimer s = { s with
          isUsingSteps := true
          isAlarmPlaying := false } := by
        simp [startMainTimer, stopAlarm, hlen', hpf, hrn]
      rw [hst]
      refine ⟨hsteps, rfl, hidx, hrem, hmain, fun hrf _ => ?_⟩
      rw [show ({ s with isUsingSteps := true, isAlarmPlaying := false }
        : AppState).isMainTimerRunning = s.isMainTimerRunning from rfl, hrn] at hrf
      exact absurd hrf (by simp)
    · have hrf : s.isMainTimerRunning = false := by
        cases hq : s.isMainTimerRunning
        · rfl
        · exact absurd hq hrn
      obtain ⟨hi0, hr0, hm0⟩ := hidle hrf hpf
      have hst : startMainTimer s = { s with
          isUsingSteps := true
          isMainTimerRunning := true
          isRunning := true
          currentStepIndex := 0
          remainingTime := stepDurAt s.steps 0
          isPaused := false
          isAlarmPlaying := false } := by
        simp [startMainTimer, stopAlarm, hlen', hpf, hrf]
      rw [hst, hsteps]
      refine ⟨rfl, rfl, hlen, stepDurAt_pos l hd 0 hlen, ?_, fun hc _ => by simp at hc⟩
      show s.mainTimerRemainingTime = stepDurAt l 0 + sufDur l (0 + 1)
      rw [hm0, stepsTotal_eq_sufDur_zero, sufDur_succ l 0 hlen]

lemma Inv_tick (l : List TimerStep) (hne : l ≠ [])
    (hd : ∀ st ∈ l, 1 ≤ st.duration) (s : AppState) (h : Inv l s) :
    Inv l (tick s) := by
  obtain ⟨hsteps, hus, hidx, hrem, hmain, hidle⟩ := h
  have hlen : 0 < l.length := List.length_pos.mpr hne
  have hlen' : 0 < s.steps.length := by rw [hsteps]; exact hlen
  by_cases hg : (s.isMainTimerRunning && !s.isPaused) = true
  case neg =>
    have ht : tick s = s := by
      rw [tick, if_neg]
      simpa using hg
    rw [ht]
    exact ⟨hsteps, hus, hidx, hrem, hmain, hidle⟩
  case pos =>
    have hrn : s.isMainTimerRunning = true := by
      have := Bool.and_elim_left hg
      simpa using this
    have hpf : s.isPaused = false := by
      have := Bool.and_elim_right hg
      simpa using this
    by_cases hr1 : s.remainingTime ≤ 1
    · have hrem1 : s.remainingTime = 1 := by omega
      by_cases hlast : s.currentStepIndex < s.steps.length - 1
      · have hidx1 : s.currentStepIndex + 1 < l.length := by
          rw [hsteps] at hlast
          omega
        have hsup : sufDur l (s.currentStepIndex + 1)
            = stepDurAt l (s.currentStepIndex + 1) + sufDur l (s.currentStepIndex + 1 + 1) :=
          sufDur_succ l (s.currentStepIndex + 1) hidx1
        have hdp : 1 ≤ stepDurAt l (s.currentStepIndex + 1) :=
          stepDurAt_pos l hd (s.currentStepIndex + 1) hidx1
        have h2 : 1 < s.mainTimerRemainingTime := by omega
        rw [tick_seq_advance s hrn hpf hus hr1 h2 hlast, hsteps]
        refine ⟨rfl, hus, hidx1, hdp, ?_,
          fun hc _ => absurd (hrn.symm.trans hc) (by simp)⟩
        show s.mainTimerRemainingTime - 1
          = stepDurAt l (s.currentStepIndex + 1) + sufDur l (s.currentStepIndex + 1 + 1)
        omega
      · have hidxlast : s.currentStepIndex = l.length - 1 := by
          rw [hsteps] at hlast
          omega
        have hsup0 : sufDur l (s.currentStepIndex + 1) = 0 := by
          rw [show s.currentStepIndex + 1 = l.length by omega]
          exact sufDur_length l
        have h2 : s.mainTimerRemainingTime ≤ 1 := by omega
        rw [tick_seq_complete s hrn hpf hus hr1 h2 hlast hlen', hsteps]
        exact ⟨rfl, hus, hlen, stepDurAt_pos l hd 0 hlen,
          by show stepsTotal l = stepDurAt l 0 + sufDur l (0 + 1);
             rw [stepsTotal_eq_sufDur_zero, sufDur_succ l 0 hlen],
          fun _ _ => ⟨rfl, rfl, rfl⟩⟩
    · have h1 : 1 < s.remainingTime := by omega
      have h2 : 1 < s.mainTimerRemainingTime := by omega
      rw [tick_seq_interior s hrn hpf hus h1 h2]
      refine ⟨hsteps, hus, hidx, by show 1 ≤ s.remainingTime - 1; omega, ?_,
        fun hc _ => absurd (hrn.symm.trans hc) (by simp)⟩
      show s.mainTimerRemainingTime - 1 = s.remainingTime - 1 + sufDur l (s.currentStepIndex + 1)
      omega

lemma Inv_reachable (l : List TimerStep) (hne : l ≠ [])
    (hd : ∀ st ∈ l, 1 ≤ st.duration) (s : AppState) (hr : Reachable l s) :
    Inv l s := by
  induction hr with
  | seed => exact Inv_seed l hne hd
  | step op t _ ih =>
    cases op with
    | startOp => exact Inv_start l hne hd t ih
    | tickOp => exact Inv_tick l hne hd t ih
    | pauseOp => exact Inv_pause l t ih
    | resumeOp => exact Inv_resume l t ih
    | resetOp => exact Inv_reset l hne hd t ih

/-- C3: in sequential mode (a fixed non-empty step list of positive
durations), `remainingOverall ≥ remainingStep` holds in every state reachable
from the seeded start by any sequence of start, tick, pause, resume and reset
operations. -/
theorem C3_remOverall_ge_remStep (l : List TimerStep) (hne : l ≠ [])
    (hd : ∀ st ∈ l, 1 ≤ st.duration) (s : AppState) (hr : Reachable l s) :
    s.remainingTime ≤ s.mainTimerRemainingTime := by
  obtain ⟨_, _, _, _, hmain, _⟩ := Inv_reachable l hne hd s hr
  omega

/-- Witness for C3 on the two-step sequence `[A: 2s, B: 3s]`, both at the
seeded state and after `start` followed by one tick. -/
theorem C3_remOverall_ge_remStep_witness :
    (([{ id := 1, name := "A", duration := 2 }, { id := 2, name := "B", duration := 3 }]
        : List TimerStep) ≠ [])
      ∧ (∀ st ∈ ([{ id := 1, name := "A", duration := 2 },
            { id := 2, name := "B", duration := 3 }] : List TimerStep), 1 ≤ st.duration)
      ∧ (tick (startMainTimer (seededIdle [{ id := 1, name := "A", duration := 2 },
            { id := 2, name := "B", duration := 3 }]))).remainingTime
          ≤ (tick (startMainTimer (seededIdle [{ id := 1, name := "A", duration := 2 },
            { id := 2, name := "B", duration := 3 }]))).mainTimerRemainingTime := by
  refine ⟨by decide, by decide, ?_⟩
  exact C3_remOverall_ge_remStep _ (by decide) (by decide) _
    (Reachable.step TimerOp.tickOp _ (Reachable.step TimerOp.startOp _ Reachable.seed))

end SeqTimer
